import Mathlib

/-!
Verification development for the HTTP file cache (`cache.py`).

The cache stores rows in an SQLite table and evaluates freshness inside a
SQL expression.  The shallow embedding below models:

* Python datetimes (`Datetime`), the HTTP-date codec
  (`httpdate_to_datetime` / `datetime_to_httpdate`, format
  `"%a, %d %b %Y %H:%M:%S %Z"`),
* the Cache-Control directive parser (`parse_cache_control`),
* the SQLite table `data` as a list of rows, together with the SQLite
  value semantics the queries rely on: NULL propagation, truthiness of
  CASE conditions, numeric coercion of ISO-8601 timestamp text (whose
  numeric value is its leading year), INTEGER column affinity, the
  NOT NULL constraint on `http_date` (violations abort the statement,
  are caught by `_execute`, and leave the store unchanged), scalar
  `max()` returning NULL when any argument is NULL, and `LIKE` matching
  (ASCII case-insensitive, `%`/`_` wildcards),
* the operations `Cache.get`, `Cache.set`, `Cache.touch`, `Cache.domain`
  and `conditional_headers`.

Exceptions that escape an operation (only the `int()` conversion inside
the directive parser can raise out of `set`/`touch`) are modelled with
`Except Unit`; swallowed `sqlite3` errors (printed by `_execute`) leave
the state unchanged, as in the source.
-/

/-- Lowers an ASCII capital letter, leaving every other character alone
(the ASCII folding used by CPython strptime matching and SQLite LIKE). -/
def asciiLower (c : Char) : Char :=
  if 'A' ≤ c ∧ c ≤ 'Z' then Char.ofNat (c.toNat + 32) else c

/-- Whitespace in the sense of Python `str.strip` / regex `\s`
(space, tab, newline, carriage return, vertical tab, form feed). -/
def isPyWs (c : Char) : Bool :=
  c = ' ' || c = '\t' || c = '\n' || c = '\r' || c = Char.ofNat 11 || c = Char.ofNat 12

/-- Python `str.strip()` on a character list: drop whitespace at both ends. -/
def pyStrip (cs : List Char) : List Char :=
  (((cs.dropWhile isPyWs).reverse).dropWhile isPyWs).reverse

/-- Python `str.split(sep)` for a one-character separator: split on every
occurrence, keeping empty segments (so `"".split(s) = [""]`). -/
def splitOnChar (sep : Char) : List Char → List (List Char)
  | [] => [[]]
  | c :: rest =>
    let r := splitOnChar sep rest
    if c = sep then [] :: r
    else match r with
      | [] => [[c]]
      | g :: gs => (c :: g) :: gs

/-- Value of a decimal digit, if the character is one. -/
def digitVal (c : Char) : Option Nat :=
  if '0' ≤ c ∧ c ≤ '9' then some (c.toNat - '0'.toNat) else none

/-- Reads all leading decimal digits into a number (`none` when there is
no leading digit), returning the value, the number of digits consumed and
the rest of the input. -/
def readDigits : List Char → Option (Nat × Nat × List Char)
  | [] => none
  | c :: cs =>
    match digitVal c with
    | none => none
    | some d =>
      match readDigits cs with
      | none => some (d, 1, cs)
      | some (v, n, rest) => some (d * 10 ^ n + v, n + 1, rest)

/-- Greedy one-or-two-digit numeric field, as matched by the CPython
strptime patterns for `%d`, `%H`, `%M`, `%S`. -/
def readNum2 : List Char → Option (Nat × List Char)
  | [] => none
  | c :: cs =>
    match digitVal c with
    | none => none
    | some d =>
      match cs with
      | c2 :: cs2 =>
        match digitVal c2 with
        | none => some (d, cs)
        | some d2 => some (d * 10 + d2, cs2)
      | [] => some (d, [])

/-- Exactly four digits, as required by the CPython strptime `%Y` pattern. -/
def readYear4 : List Char → Option (Nat × List Char)
  | c1 :: c2 :: c3 :: c4 :: rest =>
    match digitVal c1, digitVal c2, digitVal c3, digitVal c4 with
    | some d1, some d2, some d3, some d4 =>
      match rest with
      | c5 :: _ =>
        match digitVal c5 with
        | some _ => none
        | none => some (((d1 * 10 + d2) * 10 + d3) * 10 + d4, rest)
      | [] => some (((d1 * 10 + d2) * 10 + d3) * 10 + d4, [])
    | _, _, _, _ => none
  | _ => none

/-- Consumes an exact literal (already lower-cased), returning the rest. -/
def chompLit : List Char → List Char → Option (List Char)
  | [], cs => some cs
  | _ :: _, [] => none
  | l :: ls, c :: cs => if c = l then chompLit ls cs else none

/-- Consumes one-or-more whitespace characters, as a run of whitespace in
a strptime format string matches `\s+`. -/
def chompWs1 (cs : List Char) : Option (List Char) :=
  match cs with
  | [] => none
  | c :: rest => if isPyWs c then some (rest.dropWhile isPyWs) else none

/-- Tries each candidate literal in order and consumes the first that is a
prefix of the input; candidates are listed longest first, matching the
length-sorted alternation CPython strptime builds for named fields. -/
def chompFirstOf (names : List (List Char)) (cs : List Char) : Option (List Char) :=
  match names with
  | [] => none
  | n :: ns =>
    match chompLit n cs with
    | some rest => some rest
    | none => chompFirstOf ns cs

/-- Lower-case weekday abbreviations recognised by strptime `%a`
(abbreviated names only — full names belong to `%A` — matched
case-insensitively). -/
def wdayNames : List (List Char) :=
  [("mon").toList, ("tue").toList, ("wed").toList, ("thu").toList,
   ("fri").toList, ("sat").toList, ("sun").toList]

/-- Lower-case month abbreviations for strptime `%b`, in month order. -/
def monNames : List (List Char) :=
  [("jan").toList, ("feb").toList, ("mar").toList, ("apr").toList,
   ("may").toList, ("jun").toList, ("jul").toList, ("aug").toList,
   ("sep").toList, ("oct").toList, ("nov").toList, ("dec").toList]

/-- Timezone names recognised by strptime `%Z` on a GMT/UTC system. -/
def tzNames : List (List Char) :=
  [("utc").toList, ("gmt").toList]

/-- Tries each name in order, pairing a successful match with its
1-based position in the list. -/
def chompIndexed (names : List (List Char)) (i : Nat) (cs : List Char) :
    Option (Nat × List Char) :=
  match names with
  | [] => none
  | n :: ns =>
    match chompLit n cs with
    | some rest => some (i, rest)
    | none => chompIndexed ns (i + 1) cs

/-- Consumes a month abbreviation, returning the month number (1-12). -/
def chompMonth (cs : List Char) : Option (Nat × List Char) :=
  chompIndexed monNames 1 cs

/-- Gregorian leap-year test. -/
def isLeapYear (y : Nat) : Bool :=
  (y % 4 = 0 && y % 100 ≠ 0) || y % 400 = 0

/-- Number of days in a month of a given year (0 for an invalid month,
so that no day passes the range check). -/
def daysInMonth (y m : Nat) : Nat :=
  if m = 1 then 31 else if m = 2 then (if isLeapYear y then 29 else 28)
  else if m = 3 then 31 else if m = 4 then 30 else if m = 5 then 31
  else if m = 6 then 30 else if m = 7 then 31 else if m = 8 then 31
  else if m = 9 then 30 else if m = 10 then 31 else if m = 11 then 30
  else if m = 12 then 31 else 0

/-- Days since 1970-01-01 of a civil date (Hinnant's algorithm, using
floor division so years before the epoch are handled correctly). -/
def daysFromCivil (y m d : Int) : Int :=
  let yA := if m ≤ 2 then y - 1 else y
  let era := Int.fdiv yA 400
  let yoe := yA - era * 400
  let mp := if m > 2 then m - 3 else m + 9
  let doy := Int.fdiv (153 * mp + 2) 5 + d - 1
  let doe := yoe * 365 + Int.fdiv yoe 4 - Int.fdiv yoe 100 + doy
  era * 146097 + doe - 719468

/-- Python `datetime` value as it occurs in the cache: a naive or
timezone-annotated wall-clock time.  `tz` is the `tzname` rendered by
strftime `%Z` (`none` means naive, printed as the empty string); it is
`none` for every value produced by strptime, and `some "GMT"` for
`datetime.now(GMT())` used in the default headers of `set`. -/
structure Datetime where
  year : Nat
  month : Nat
  day : Nat
  hour : Nat
  minute : Nat
  second : Nat
  tz : Option String
deriving DecidableEq, Repr

/-- Seconds since the Unix epoch of a datetime read as UTC; this is what
SQLite `strftime('%s', t)` yields on the stored ISO-8601 text. -/
def epochOf (t : Datetime) : Int :=
  daysFromCivil t.year t.month t.day * 86400
    + (t.hour : Int) * 3600 + (t.minute : Int) * 60 + (t.second : Int)

/-- Day of the week (0 = Sunday) of a datetime, used by strftime `%a`. -/
def dowOf (t : Datetime) : Nat :=
  (Int.emod (daysFromCivil t.year t.month t.day + 4) 7).toNat

/-- Decimal rendering padded to two digits. -/
def pad2 (n : Nat) : String :=
  if n < 10 then ("0") ++ toString n else toString n

/-- Decimal rendering padded to four digits (the year field of
`datetime.isoformat`, under which the sqlite3 adapter stores
timestamps). -/
def pad4 (n : Nat) : String :=
  if n < 10 then ("000") ++ toString n
  else if n < 100 then ("00") ++ toString n
  else if n < 1000 then ("0") ++ toString n
  else toString n

/-- Capitalised weekday abbreviations, indexed by `dowOf`. -/
def wdayAbbr : List String :=
  [("Sun"), ("Mon"), ("Tue"), ("Wed"), ("Thu"), ("Fri"), ("Sat")]

/-- Capitalised month abbreviations, indexed by month - 1. -/
def monAbbr : List String :=
  [("Jan"), ("Feb"), ("Mar"), ("Apr"), ("May"), ("Jun"),
   ("Jul"), ("Aug"), ("Sep"), ("Oct"), ("Nov"), ("Dec")]

/-- Python `dt.strftime("%a, %d %b %Y %H:%M:%S %Z")`: the `%Z` field is
the timezone name, rendered as the empty string for a naive datetime (so
formatting a stored, strptime-produced value ends in a space with no
zone name), and `%Y` is the year as glibc renders it — without zero
padding, which only shows below year 1000 (the codec boundary in
`datetime_to_httpdate` only ever formats years from 1900 up, where the
rendering is plain four digits). -/
def strftimeHttp (t : Datetime) : String :=
  (wdayAbbr.getD (dowOf t) ("")) ++ (", ") ++ pad2 t.day ++ (" ")
    ++ (monAbbr.getD (t.month - 1) ("")) ++ (" ") ++ toString t.year ++ (" ")
    ++ pad2 t.hour ++ (":") ++ pad2 t.minute ++ (":") ++ pad2 t.second
    ++ (" ") ++ (t.tz.getD (""))

/-- Python `datetime.strptime(s, "%a, %d %b %Y %H:%M:%S %Z")`, returning
`none` where CPython raises `ValueError`.  Matching is case-insensitive;
named fields use the name tables above; numeric fields follow the CPython
field patterns (1-2 digits for `%d`/`%H`/`%M`/`%S`, exactly 4 for `%Y`);
whitespace runs in the format match one-or-more whitespace characters;
the whole input must be consumed; and the resulting calendar values must
form a valid `datetime` (this also rejects the leap seconds 60 and 61
that the `%S` pattern itself would admit).  The result is naive
(`tz = none`): `%Z` only fixes a zone name, never a UTC offset.
This stage covers the leading `%a, ` fields. -/
def strpWdayPart (s : String) : Option (List Char) :=
  (chompFirstOf wdayNames (s.toList.map asciiLower)).bind fun cs1 =>
  (chompLit [','] cs1).bind fun cs2 =>
  chompWs1 cs2

/-- Fields `%d %b ` of the format: day, whitespace, month, whitespace. -/
def strpDayMonthPart (cs : List Char) : Option (Nat × Nat × List Char) :=
  (readNum2 cs).bind fun dc =>
  (chompWs1 dc.2).bind fun cs4 =>
  (chompMonth cs4).bind fun moc =>
  (chompWs1 moc.2).bind fun cs5 =>
  some (dc.1, moc.1, cs5)

/-- Fields `%H:%M:%S` of the format. -/
def strpTimePart (cs : List Char) : Option (Nat × Nat × Nat × List Char) :=
  (readNum2 cs).bind fun hc =>
  (chompLit [':'] hc.2).bind fun cs7 =>
  (readNum2 cs7).bind fun mic =>
  (chompLit [':'] mic.2).bind fun cs8 =>
  (readNum2 cs8).bind fun sc =>
  some (hc.1, mic.1, sc.1, sc.2)

/-- Field ` %Z` of the format plus the end-of-input requirement. -/
def strpZonePart (cs : List Char) : Bool :=
  match (chompWs1 cs).bind (chompFirstOf tzNames) with
  | some [] => true
  | _ => false

/-- Python `datetime.strptime(s, "%a, %d %b %Y %H:%M:%S %Z")` assembled
from the stages above, returning `none` where CPython raises
`ValueError`. -/
def strptimeHttp (s : String) : Option Datetime :=
  (strpWdayPart s).bind fun cs3 =>
  (strpDayMonthPart cs3).bind fun dmo =>
  (readYear4 dmo.2.2).bind fun yc =>
  (chompWs1 yc.2).bind fun cs6 =>
  (strpTimePart cs6).bind fun hms =>
  if strpZonePart hms.2.2.2
      ∧ 1 ≤ yc.1 ∧ 1 ≤ dmo.1 ∧ dmo.1 ≤ daysInMonth yc.1 dmo.2.1
      ∧ hms.1 ≤ 23 ∧ hms.2.1 ≤ 59 ∧ hms.2.2.1 ≤ 59 then
    some (Datetime.mk yc.1 dmo.2.1 dmo.1 hms.1 hms.2.1 hms.2.2.1 none)
  else none

/-- Source `httpdate_to_datetime`: `None` input yields `None`; malformed
text yields `None` (the `ValueError` from strptime is caught); well-formed
IMF-fixdate text yields the parsed naive datetime.  The `TypeError`
branch of the source only triggers for non-string input, which the model
(like every call site in the cache) excludes by typing. -/
def httpdate_to_datetime (input_date : Option String) : Option Datetime :=
  match input_date with
  | none => none
  | some s => strptimeHttp s

/-- Source `datetime_to_httpdate`: `None` input yields `None`, a datetime
is rendered with strftime.  The repository is Python 2 code (the
`cPickle` fallback and the `print(e.message)` calls in `_execute` and
`_open`, on which the swallowed-error semantics of the store model
depend, only work there), and Python 2 `strftime` raises `ValueError`
for years before 1900; the source's `except (ValueError, TypeError)`
branch is the live guard for exactly that and returns `None`.  Such
datetimes are reachable — `strptime` accepts any four-digit year from
0001 — so `format` is absent on them.  The `TypeError` arm concerns
non-datetime input, which the model (like every call site) excludes by
typing. -/
def datetime_to_httpdate (input_date : Option Datetime) : Option String :=
  match input_date with
  | none => none
  | some t => if t.year < 1900 then none else some (strftimeHttp t)

@[simp] theorem httpdate_to_datetime_none : httpdate_to_datetime none = none := rfl

@[simp] theorem datetime_to_httpdate_none : datetime_to_httpdate none = none := rfl

example : httpdate_to_datetime (some ("Wed, 01 Jan 2020 00:00:00 GMT"))
    = some (Datetime.mk 2020 1 1 0 0 0 none) := by decide

example : httpdate_to_datetime (some ("not a date")) = none := by decide

example : strftimeHttp (Datetime.mk 2020 1 1 0 0 0 none)
    = ("Wed, 01 Jan 2020 00:00:00 ") := by decide

example : strftimeHttp (Datetime.mk 2020 1 1 0 0 0 (some ("GMT")))
    = ("Wed, 01 Jan 2020 00:00:00 GMT") := by decide

example : epochOf (Datetime.mk 1970 1 1 0 0 0 none) = 0 := by decide

example : epochOf (Datetime.mk 2020 1 1 0 0 30 none) = 1577836830 := by decide

/-- Decimal value of an all-digit, non-empty character list. -/
def decNat (cs : List Char) : Option Nat :=
  match readDigits cs with
  | some (v, _, []) => some v
  | _ => none

/-- Python `int(text)` in base 10, as applied to a Cache-Control directive
value: surrounding whitespace is stripped, then an optional sign followed
by one or more digits; anything else raises `ValueError`, modelled as
`Except.error`.  (Python 2 `int()`, matching the repository's Python 2
code, tolerates nothing further; the `_` digit separators of Python 3
are not part of it.) -/
def pyInt (s : String) : Except Unit Int :=
  let core : Option Int :=
    match pyStrip s.toList with
    | '-' :: rest => (decNat rest).map (fun n => -(n : Int))
    | '+' :: rest => (decNat rest).map (fun n => (n : Int))
    | cs => (decNat cs).map (fun n => (n : Int))
  match core with
  | some v => Except.ok v
  | none => Except.error ()

/-- Value of a parsed Cache-Control directive: `int(parts[1])` when the
token has an `=`, the Python boolean `True` otherwise. -/
inductive CCVal where
  | intVal (n : Int)
  | trueVal
deriving DecidableEq, Repr

/-- One directive token of `_parse_cache_control`: `parts` is
`directive.split("=")`; the key is `parts[0].strip()` and the value is
`int(parts[1])` when `len(parts) > 1` (parts after the second are
ignored) and `True` otherwise. -/
def parse_directive (tok : String) : Except Unit (String × CCVal) :=
  match splitOnChar '=' tok.toList with
  | [] => Except.ok (("").trim, CCVal.trueVal)
  | [n] => Except.ok (String.mk (pyStrip n), CCVal.trueVal)
  | n :: v :: _ =>
    (pyInt (String.mk v)).map (fun i => (String.mk (pyStrip n), CCVal.intVal i))

/-- Source `Cache._parse_cache_control`: `None` yields the empty mapping,
otherwise the header is split on `,` and each token parsed by
`parse_directive`; the resulting Python dict is modelled as the
association list of bindings in evaluation order (a repeated key is
looked up by its last binding, as in a dict comprehension).  A
`ValueError` from `int` propagates, aborting the whole parse at the
first bad token exactly as the comprehension does. -/
def parse_cache_control (header : Option String) : Except Unit (List (String × CCVal)) :=
  match header with
  | none => Except.ok []
  | some h => ((splitOnChar ',' h.toList).map String.mk).mapM parse_directive

/-- Python `key in dict` over the binding-list model. -/
def dictHasKey (d : List (String × CCVal)) (k : String) : Bool :=
  d.any (fun p => p.1 == k)

/-- Python `dict.get(key)` over the binding-list model: the last binding
of the key wins, `None` when the key is absent. -/
def dictGet (d : List (String × CCVal)) (k : String) : Option CCVal :=
  (d.reverse.find? (fun p => p.1 == k)).map (fun p => p.2)

/-- Value a directive carries once stored in an INTEGER-affinity column:
a Python `True` becomes 1, an int stays itself. -/
def ccToInt (v : CCVal) : Int :=
  match v with
  | CCVal.intVal n => n
  | CCVal.trueVal => 1

/-- Value stored in the INTEGER-affinity `age` column, which receives the
raw `Age` header text: SQLite converts the text to an INTEGER when that
conversion is lossless and reversible, and stores the TEXT unchanged
otherwise.  Comparisons in the freshness query depend on the storage
class, so both are kept. -/
inductive SqlVal where
  | intVal (n : Int)
  | textVal (s : String)
deriving DecidableEq, Repr

/-- Decimal integer literal reading used by the affinity check (optional
sign, then digits). -/
def readDecInt (cs : List Char) : Option Int :=
  match cs with
  | '-' :: rest => (decNat rest).map (fun n => -(n : Int))
  | '+' :: rest => (decNat rest).map (fun n => (n : Int))
  | _ => (decNat cs).map (fun n => (n : Int))

/-- SQLite INTEGER column affinity applied to header text: text that is
a well-formed integer literal, optionally wrapped in whitespace (SQLite
converts `'+5'`, `'05'`, `' 5'` alike), is stored as that INTEGER; other
text is stored unchanged as TEXT.  Real literals such as `'5.5'` would
get REAL (or, when integral, INTEGER) storage in SQLite; the model has
no REAL storage class and keeps them TEXT — a disclosed corner no header
in the claims exercises. -/
def applyIntegerAffinity (s : String) : SqlVal :=
  match readDecInt (pyStrip s.toList) with
  | some n => SqlVal.intVal n
  | none => SqlVal.textVal s

/-- Source `Blob`: the payload serialisation wrapper.  `cpickle.dumps` /
`cpickle.loads` are external-library functions specified by their
round-trip contract (any picklable value deserialises back to an equal
value), so the pickled bytes of a payload of type `α` are modelled as an
opaque box holding the value itself. -/
structure Blob (α : Type) where
  data : α
deriving DecidableEq, Repr

/-- Source `Blob.deserialise`, the converter registered for the BLOB
column: inverse of the pickling in `Blob.__conform__`. -/
def Blob.deserialise {α : Type} (b : Blob α) : α :=
  b.data

/-- One row of the `data` table, per `Cache._create_table`.  `uri` is the
primary key; `http_date` is NOT NULL, so a row always carries one (a
write that would store NULL there aborts and is rolled back before any
row exists without it); `age` keeps the storage class the INTEGER
affinity produced; `max_age` and `immutable` come from directive values,
which are always stored as INTEGERs. -/
structure Row (α : Type) where
  uri : String
  blob : Blob α
  http_date : Datetime
  age : Option SqlVal
  etag : Option String
  expires : Option Datetime
  last_modified : Option Datetime
  max_age : Option Int
  immutable : Option Int
deriving DecidableEq, Repr

/-- Header mapping consumed by `set` and `touch` (the keys the source
reads; a key not present in the request is `none`). -/
structure Headers where
  date : Option String := none
  cache_control : Option String := none
  age : Option String := none
  etag : Option String := none
  expires : Option String := none
  last_modified : Option String := none
deriving DecidableEq, Repr

/-- ISO-8601 text under which Python's sqlite3 adapter stores a datetime
(`isoformat(" ")`, seconds resolution); this is the value SQL expressions
see in the TIMESTAMP columns. -/
def isoText (t : Datetime) : String :=
  pad4 t.year ++ ("-") ++ pad2 t.month ++ ("-") ++ pad2 t.day ++ (" ")
    ++ pad2 t.hour ++ (":") ++ pad2 t.minute ++ (":") ++ pad2 t.second

/-- Truthiness of the `max_age` INTEGER column in `CASE WHEN max_age`:
NULL and 0 are false, any other integer is true. -/
def intColTruthy (v : Option Int) : Bool :=
  match v with
  | none => false
  | some n => n != 0

/-- Truthiness of a TIMESTAMP column in `CASE WHEN expires`: NULL is
false, otherwise the ISO text is numerically coerced — its longest
numeric prefix is the zero-padded year — so the text is true exactly
when the year is non-zero. -/
def tsColTruthy (v : Option Datetime) : Bool :=
  match v with
  | none => false
  | some t => t.year != 0

/-- Freshness expression of the `get` query, with SQLite's evaluation
rules spelt out:

* `CASE WHEN max_age THEN max(age, max_age) ...` — scalar `max` returns
  NULL when any argument is NULL, the integer maximum when both are
  INTEGERs, and the TEXT argument when `age` kept TEXT storage class
  (TEXT sorts above every INTEGER);
* `WHEN expires THEN expires - http_date` — the `-` operator coerces the
  ISO timestamp text of both operands to their numeric prefix, which is
  the zero-padded year, so this difference is in years, not seconds;
* `ELSE cast((datetime('now') - last_modified) / 10 as int)` — the same
  numeric coercion applies (`datetime('now')` is ISO text too), `/` is
  integer division truncating towards zero, and a NULL `last_modified`
  propagates to NULL;
* the chosen lifetime is compared with
  `strftime('%s', datetime('now')) - strftime('%s', http_date)`, a
  difference of epoch seconds; a NULL lifetime makes the comparison NULL
  (Python `None`), a TEXT lifetime compares above any INTEGER. -/
def freshVerdict {α : Type} (r : Row α) (now : Datetime) : Option Bool :=
  let currentAge : Int := epochOf now - epochOf r.http_date
  let lifetime : Option SqlVal :=
    if intColTruthy r.max_age then
      match r.age, r.max_age with
      | some (SqlVal.intVal a), some m => some (SqlVal.intVal (max a m))
      | some (SqlVal.textVal t), some _ => some (SqlVal.textVal t)
      | _, _ => none
    else if tsColTruthy r.expires then
      match r.expires with
      | some e => some (SqlVal.intVal ((e.year : Int) - (r.http_date.year : Int)))
      | none => none
    else
      match r.last_modified with
      | some lm => some (SqlVal.intVal (Int.tdiv ((now.year : Int) - (lm.year : Int)) 10))
      | none => none
  match lifetime with
  | none => none
  | some (SqlVal.intVal v) => some (decide (currentAge ≤ v))
  | some (SqlVal.textVal _) => some true

/-- Result row of `Cache.get`: the query selects only
`blob, last_modified, etag, immutable` plus the computed `fresh` column
("Retrieve a partial entry", per the source docstring).  `blob` arrives
through the registered BLOB converter, already deserialised; `fresh` has
no declared type, so it stays the raw 1/0/NULL of the comparison. -/
structure CacheEntry (α : Type) where
  blob : α
  last_modified : Option Datetime
  etag : Option String
  immutable : Option Int
  fresh : Option Bool
deriving DecidableEq, Repr

/-- Source `Cache.get`: `SELECT ... FROM data WHERE uri=?` with the
freshness CASE expression; `fetchone()` of the single matching row, or
`None` when no row matches. -/
def Cache.get {α : Type} (s : List (Row α)) (uri : String) (now : Datetime) :
    Option (CacheEntry α) :=
  (s.find? (fun r => r.uri == uri)).map (fun r =>
    CacheEntry.mk (Blob.deserialise r.blob) r.last_modified r.etag r.immutable
      (freshVerdict r now))

/-- Source `DEFAULT_MAX_AGE = 60 * 60 * 24 * 365`. -/
def DEFAULT_MAX_AGE : Nat := 60 * 60 * 24 * 365

/-- Default headers built by `set` when none are supplied:
`date` is `datetime.now(GMT())` formatted (an aware datetime, so `%Z`
renders "GMT"), and the cache-control asks for immutability for a year. -/
def defaultHeaders (now : Datetime) : Headers :=
  { date := datetime_to_httpdate (some { now with tz := some ("GMT") }),
    cache_control := some (("immutable, max-age=") ++ toString DEFAULT_MAX_AGE) }

/-- Source `Cache.set`: parse directives (a `ValueError` from a malformed
integer directive value propagates to the caller); return without writing
when `no-store` is present; otherwise `REPLACE INTO data` with the parsed
values.  When the `date` header is absent or malformed the parsed
`http_date` is NULL and the REPLACE hits the NOT NULL constraint: the
statement aborts, `_execute` catches the `IntegrityError` (printing it),
and the transaction rollback leaves the store unchanged.  A successful
REPLACE removes any row with the same `uri` and appends the new row. -/
def Cache.set {α : Type} (s : List (Row α)) (uri : String) (content : α)
    (headers : Option Headers) (now : Datetime) : Except Unit (List (Row α)) :=
  let hdrs := match headers with
    | some h => h
    | none => defaultHeaders now
  match parse_cache_control hdrs.cache_control with
  | Except.error e => Except.error e
  | Except.ok directives =>
    if dictHasKey directives ("no-store") then Except.ok s
    else
      match httpdate_to_datetime hdrs.date with
      | none => Except.ok s
      | some hd =>
        Except.ok ((s.filter (fun r => r.uri != uri)) ++
          [Row.mk uri (Blob.mk content) hd
            (hdrs.age.map applyIntegerAffinity)
            hdrs.etag
            (httpdate_to_datetime hdrs.expires)
            (httpdate_to_datetime hdrs.last_modified)
            ((dictGet directives ("max-age")).map ccToInt)
            ((dictGet directives ("immutable")).map ccToInt)])

/-- Source `Cache.touch`: `UPDATE data SET http_date=?, age=?, expires=?,
last_modified=?, max_age=? WHERE uri=?`.  A `ValueError` from the
directive parse propagates.  When the parsed `date` is a datetime the
matching rows (at most one, `uri` being the key) get all five fields
overwritten; zero matching rows are silently accepted.  When the parsed
`date` is NULL and a row matches, the NOT NULL constraint on `http_date`
aborts the statement and the rollback leaves every row unchanged (and
with no matching row there is nothing to update), so the store is
unchanged either way. -/
def Cache.touch {α : Type} (s : List (Row α)) (uri : String) (headers : Headers) :
    Except Unit (List (Row α)) :=
  match parse_cache_control headers.cache_control with
  | Except.error e => Except.error e
  | Except.ok directives =>
    match httpdate_to_datetime headers.date with
    | some hd =>
      Except.ok (s.map (fun r =>
        if r.uri == uri then
          { r with
            http_date := hd,
            age := headers.age.map applyIntegerAffinity,
            expires := httpdate_to_datetime headers.expires,
            last_modified := httpdate_to_datetime headers.last_modified,
            max_age := (dictGet directives ("max-age")).map ccToInt }
        else r))
    | none => Except.ok s

/-- SQLite `LIKE` matching: `%` matches any run of characters (the rest
of the pattern must match some suffix of the text), `_` any single
character, and ordinary characters compare ASCII case-insensitively. -/
def likeMatch : List Char → List Char → Bool
  | [], [] => true
  | [], _ :: _ => false
  | '%' :: p, s => (s.tails).any (fun t => likeMatch p t)
  | '_' :: _, [] => false
  | '_' :: p, _ :: t => likeMatch p t
  | _ :: _, [] => false
  | c :: p, x :: t => (asciiLower c = asciiLower x) && likeMatch p t

/-- Lexicographic bytewise comparison of character lists: how SQLite's
BINARY collation orders the (all-ASCII) ISO timestamp text. -/
def charListLe : List Char → List Char → Bool
  | [], _ => true
  | _ :: _, [] => false
  | a :: as, b :: bs => if a = b then charListLe as bs else decide (a.toNat < b.toNat)

theorem charListLe_total : ∀ x y, charListLe x y = true ∨ charListLe y x = true := by
  intro x
  induction x with
  | nil => intro y; exact Or.inl rfl
  | cons a as ih =>
    intro y
    cases y with
    | nil => exact Or.inr rfl
    | cons b bs =>
      by_cases hab : a = b
      · subst hab
        cases ih bs with
        | inl h => exact Or.inl (by simp [charListLe, h])
        | inr h => exact Or.inr (by simp [charListLe, h])
      · have hne : a.toNat ≠ b.toNat := fun hv => hab (Char.ext (UInt32.toNat.inj hv))
        cases Nat.lt_or_ge a.toNat b.toNat with
        | inl h => exact Or.inl (by simp [charListLe, hab, h])
        | inr h =>
          have h2 : b.toNat < a.toNat := lt_of_le_of_ne h (Ne.symm hne)
          exact Or.inr (by simp [charListLe, Ne.symm hab, h2])

theorem charListLe_trans : ∀ x y z, charListLe x y = true → charListLe y z = true →
    charListLe x z = true := by
  intro x
  induction x with
  | nil => intro y z _ _; rfl
  | cons a as ih =>
    intro y z hxy hyz
    cases y with
    | nil => exact absurd hxy (by simp [charListLe])
    | cons b bs =>
      cases z with
      | nil => exact absurd hyz (by simp [charListLe])
      | cons c cs =>
        by_cases hab : a = b
        · subst hab
          by_cases hbc : a = c
          · subst hbc
            simp only [charListLe, if_true] at hxy hyz ⊢
            exact ih bs cs (by simpa using hxy) (by simpa using hyz)
          · simp only [charListLe, hbc, if_false, if_pos rfl] at hyz ⊢
            simpa using hyz
        · by_cases hbc : b = c
          · subst hbc
            simp only [charListLe, hab, if_false] at hxy ⊢
            exact hxy
          · have h1 : a.toNat < b.toNat := by
              have := hxy
              simp only [charListLe, hab, if_false, decide_eq_true_eq] at this
              exact this
            have h2 : b.toNat < c.toNat := by
              have := hyz
              simp only [charListLe, hbc, if_false, decide_eq_true_eq] at this
              exact this
            have hac : a ≠ c := by
              intro hcc
              subst hcc
              exact absurd (lt_trans h1 h2) (lt_irrefl _)
            simp only [charListLe, hac, if_false, decide_eq_true_eq]
            exact lt_trans h1 h2

/-- Text ordering of the `http_date` column used by `order by http_date`:
SQLite compares the stored ISO text bytewise, which for adapter-produced
text is its lexicographic order. -/
def rowDateLe {α : Type} (a b : Row α) : Prop :=
  charListLe (isoText a.http_date).toList (isoText b.http_date).toList = true

instance {α : Type} : DecidableRel (@rowDateLe α) :=
  fun a b => inferInstanceAs
    (Decidable (charListLe (isoText a.http_date).toList (isoText b.http_date).toList = true))

instance {α : Type} : IsTotal (Row α) (@rowDateLe α) :=
  ⟨fun a b => charListLe_total (isoText a.http_date).toList (isoText b.http_date).toList⟩

instance {α : Type} : IsTrans (Row α) (@rowDateLe α) :=
  ⟨fun _ _ _ h1 h2 => charListLe_trans _ _ _ h1 h2⟩

/-- Source `Cache.domain`: `select * from data where uri like ? order by
http_date limit ?` with the pattern `'%{}%'.format(domain)`.  Rows tied
on `http_date` keep their scan order (stable sort). -/
def Cache.domain {α : Type} [DecidableEq α] (s : List (Row α)) (dom : String)
    (limit : Nat) : List (Row α) :=
  let pattern := ('%' :: dom.toList) ++ ['%']
  (List.insertionSort rowDateLe (s.filter (fun r => likeMatch pattern r.uri.toList))).take limit

/-- Source `conditional_headers`: builds the revalidation request header
dict from a row's validators.  The `If-Modified-Since` value is whatever
`datetime_to_httpdate(row["last_modified"])` returns — the strftime
rendering for years from 1900 up, and Python `None` for the pre-1900
datetimes the codec refuses — so the dict values are optional strings
(the `If-None-Match` value, the etag, is always present). -/
def conditional_headers {α : Type} (row : Row α) : List (String × Option String) :=
  (match row.etag with
   | some e => [(("If-None-Match"), some e)]
   | none => []) ++
  (match row.last_modified with
   | some lm => [(("If-Modified-Since"), datetime_to_httpdate (some lm))]
   | none => [])

/-- Rejoins split segments with `=`, recovering the text after the first
`=` of a token. -/
def joinEqChars : List (List Char) → List Char
  | [] => []
  | [x] => x
  | x :: xs => x ++ '=' :: joinEqChars xs

/-- Modelled from the claim's words, for comparison with
`parse_directive`: the token is split at the FIRST `=` only, the whole
remainder — which may itself contain `=` — being the value handed to
`int`. -/
def parse_directive_firstSplit (tok : String) : Except Unit (String × CCVal) :=
  match splitOnChar '=' tok.toList with
  | [] => Except.ok (String.mk (pyStrip []), CCVal.trueVal)
  | [n] => Except.ok (String.mk (pyStrip n), CCVal.trueVal)
  | n :: rest =>
    (pyInt (String.mk (joinEqChars rest))).map
      (fun i => (String.mk (pyStrip n), CCVal.intVal i))

/-- Modelled from the claim's words: the directive parser with the
first-`=`-only token split. -/
def parse_cache_control_firstSplit (header : Option String) :
    Except Unit (List (String × CCVal)) :=
  match header with
  | none => Except.ok []
  | some h => ((splitOnChar ',' h.toList).map String.mk).mapM parse_directive_firstSplit

/-- Does the first list start the second (character-exact)? -/
def startsWithChars : List Char → List Char → Bool
  | [], _ => true
  | _ :: _, [] => false
  | a :: as, b :: bs => a = b && startsWithChars as bs

/-- Modelled from the claim's words: case-sensitive, wildcard-free
substring containment, the notion `queryByUriSubstring` is claimed to
use. -/
def containsChars (sub : List Char) : List Char → Bool
  | [] => startsWithChars sub []
  | c :: t => startsWithChars sub (c :: t) || containsChars sub t

/-! Concrete values used in the claim instances below. -/

/-- T0 of the freshness-window example: 2020-01-01 00:00:00 (a Wednesday). -/
def exT0 : Datetime := Datetime.mk 2020 1 1 0 0 0 none

/-- T0 + 30 seconds. -/
def exT30 : Datetime := Datetime.mk 2020 1 1 0 0 30 none

/-- T0 + 61 seconds. -/
def exT61 : Datetime := Datetime.mk 2020 1 1 0 1 1 none

/-- T0 rendered as an HTTP date. -/
def exDateText : String := "Wed, 01 Jan 2020 00:00:00 GMT"

/-- Headers of the freshness-window example: a date and `max-age=60`,
no `Age` header. -/
def exHdrMaxAge : Headers :=
  { date := some exDateText, cache_control := some ("max-age=60") }

/-- A header mapping with every key absent. -/
def exHdrEmpty : Headers := {}

/-- Headers carrying only `cache-control: no-store`. -/
def exHdrNoStore : Headers := { cache_control := some ("no-store") }

/-- The row `set("u", 0, exHdrMaxAge)` stores. -/
def exRowMaxAge : Row Nat :=
  Row.mk ("u") (Blob.mk 0) exT0 none none none none (some 60) none

/-- A fully-populated existing row used in the `touch` instances. -/
def exRowAged : Row Nat :=
  Row.mk ("u") (Blob.mk 1) exT0 (some (SqlVal.intVal 5)) (some ("e"))
    none none (some 60) (some 1)

/-- A row with etag `"v1"` and no `last_modified`. -/
def exRowEtagV1 : Row Nat :=
  Row.mk ("u") (Blob.mk 0) exT0 none (some ("\"v1\"")) none none none none

/-- Two rows identical except for `age` (which `max_age = NULL` keeps out
of the freshness formula). -/
def exRowAge1 : Row Nat :=
  Row.mk ("u") (Blob.mk 3) exT0 (some (SqlVal.intVal 1)) none none none none none

/-- Same as `exRowAge1` with a different stored `age`. -/
def exRowAge2 : Row Nat :=
  Row.mk ("u") (Blob.mk 3) exT0 (some (SqlVal.intVal 2)) none none none none none

/-- Rows of the domain-query example, with ascending dates. -/
def exRowA1 : Row Nat :=
  Row.mk ("http://a.com/1") (Blob.mk 1) exT0 none none none none none none

/-- Second `a.com` row, one day later. -/
def exRowA2 : Row Nat :=
  Row.mk ("http://a.com/2") (Blob.mk 2) (Datetime.mk 2020 1 2 0 0 0 none)
    none none none none none none

/-- The `b.com` row, latest date. -/
def exRowB1 : Row Nat :=
  Row.mk ("http://b.com/1") (Blob.mk 3) (Datetime.mk 2020 1 3 0 0 0 none)
    none none none none none none

/-! Helper lemmas shared by the claim theorems. -/

theorem find?_filter_ne {α : Type} (s : List (Row α)) (u : String) :
    List.find? (fun r => r.uri == u) (s.filter (fun r => r.uri != u)) = none := by
  refine List.find?_eq_none.mpr ?_
  intro x hx
  have h2 := (List.mem_filter.mp hx).2
  simp only [bne_iff_ne, ne_eq] at h2
  simp [h2]

theorem find?_replace {α : Type} (s : List (Row α)) (u : String) (r : Row α)
    (hr : (r.uri == u) = true) :
    List.find? (fun x => x.uri == u)
      ((s.filter (fun x => x.uri != u)) ++ [r]) = some r := by
  rw [List.find?_append, find?_filter_ne]
  simp [List.find?_cons, hr]

theorem map_fix_self {β : Type} (l : List β) (f : β → β)
    (h : ∀ x ∈ l, f x = x) : l.map f = l := by
  induction l with
  | nil => rfl
  | cons a t ih =>
    simp only [List.map_cons, h a (by simp)]
    rw [ih (fun x hx => h x (by simp [hx]))]

/-- C1: the claim (and the spec's freshness-window test) says an entry
stored with `date: T0` and `cache-control: "max-age=60"` and no `Age`
header reports `fresh = true` at T0+30s and `fresh = false` at T0+61s,
under the formula `freshness_lifetime = max(age, max_age)` with `age`
defaulting to 0.  The code evaluates SQL `max(age, max_age)` with `age`
NULL, which is NULL, so the comparison — and the reported `fresh` — is
NULL (Python `None`) at both instants: the claimed verdicts never
appear.  This theorem evaluates the embedded code at that input. -/
theorem C1_fresh_is_null_not_boolean :
    Cache.set ([] : List (Row Nat)) ("u") 0 (some exHdrMaxAge) exT30 = Except.ok [exRowMaxAge]
    ∧ (Cache.get [exRowMaxAge] ("u") exT30).map (fun e => e.fresh) = some none
    ∧ (Cache.get [exRowMaxAge] ("u") exT61).map (fun e => e.fresh) = some none
    ∧ freshVerdict exRowMaxAge exT30 ≠ some true
    ∧ freshVerdict exRowMaxAge exT61 ≠ some false :=
  ⟨rfl, rfl, rfl, by decide, by decide⟩

/-- C2: when the parsed Cache-Control directives contain `no-store`,
`set` returns before writing: the store is exactly unchanged, and on a
store with no row for the uri a subsequent `get` returns absent. -/
theorem C2_no_store_set_noop {α : Type} (s : List (Row α)) (u : String) (v : α)
    (h : Headers) (now : Datetime) (d : List (String × CCVal))
    (hparse : parse_cache_control h.cache_control = Except.ok d)
    (hns : dictHasKey d ("no-store") = true) :
    Cache.set s u v (some h) now = Except.ok s
    ∧ (List.find? (fun r => r.uri == u) s = none → Cache.get s u now = none) := by
  constructor
  · unfold Cache.set
    simp only [hparse, hns, if_true]
  · intro hf
    unfold Cache.get
    rw [hf]
    rfl

/-- Witness for C2 at the concrete no-store headers. -/
theorem C2_no_store_set_noop_witness :
    Cache.set ([] : List (Row Nat)) ("u") 7 (some exHdrNoStore) exT30 = Except.ok []
    ∧ Cache.get ([] : List (Row Nat)) ("u") exT30 = none :=
  ⟨(C2_no_store_set_noop [] ("u") 7 exHdrNoStore exT30
      [(("no-store"), CCVal.trueVal)] rfl rfl).1,
   (C2_no_store_set_noop [] ("u") 7 exHdrNoStore exT30
      [(("no-store"), CCVal.trueVal)] rfl rfl).2 rfl⟩

/-- C3 counterexample: the claim quantifies over every headers mapping
without `no-store`; with the empty header mapping (no `no-store`, but
also no `date`), the REPLACE hits the NOT NULL constraint on
`http_date`, `_execute` swallows the `IntegrityError`, no row is
written, and `get` afterwards returns absent rather than a payload
equal to 42. -/
theorem C3_counterexample_dateless_set :
    dictHasKey [] ("no-store") = false
    ∧ Cache.set ([] : List (Row Nat)) ("u") 42 (some exHdrEmpty) exT30 = Except.ok []
    ∧ Cache.get ([] : List (Row Nat)) ("u") exT30 = none
    ∧ (Cache.get ([] : List (Row Nat)) ("u") exT30).map (fun e => e.blob) ≠ some 42 :=
  ⟨rfl, rfl, rfl, by decide⟩

/-- C3 amended: for every payload and every headers mapping whose
directives parse without `no-store` AND whose `date` header parses to a
datetime (so the NOT NULL `http_date` can be stored), `set` writes a row
and `get` returns a payload equal to the one stored: the payload
round-trips through the pickling codec with value equality preserved,
for an arbitrary payload type. -/
theorem C3_set_get_roundtrip {α : Type} (s : List (Row α)) (u : String) (v : α)
    (h : Headers) (now : Datetime) (d : List (String × CCVal)) (hd : Datetime)
    (hparse : parse_cache_control h.cache_control = Except.ok d)
    (hns : dictHasKey d ("no-store") = false)
    (hdate : httpdate_to_datetime h.date = some hd) :
    ∃ s', Cache.set s u v (some h) now = Except.ok s'
      ∧ (Cache.get s' u now).map (fun e => e.blob) = some v := by
  refine ⟨(s.filter (fun r => r.uri != u)) ++
      [Row.mk u (Blob.mk v) hd (h.age.map applyIntegerAffinity) h.etag
        (httpdate_to_datetime h.expires) (httpdate_to_datetime h.last_modified)
        ((dictGet d ("max-age")).map ccToInt)
        ((dictGet d ("immutable")).map ccToInt)], ?_, ?_⟩
  · unfold Cache.set
    simp only [hparse, hns, hdate]
    exact rfl
  · unfold Cache.get
    rw [find?_replace s u _ (by simp)]
    rfl

/-- Witness for C3 at concrete values: a Nat payload stored under the
max-age headers round-trips. -/
theorem C3_set_get_roundtrip_witness :
    ∃ s', Cache.set ([] : List (Row Nat)) ("u") 42 (some exHdrMaxAge) exT30 = Except.ok s'
      ∧ (Cache.get s' ("u") exT30).map (fun e => e.blob) = some 42 :=
  C3_set_get_roundtrip [] ("u") 42 exHdrMaxAge exT30
    [(("max-age"), CCVal.intVal 60)] exT0 rfl rfl rfl

/-- C4 counterexample: on the token `max-age=1=2` the code splits on
EVERY `=` and converts only `parts[1]`, yielding `{"max-age": 1}`,
whereas the claim's split-at-the-first-`=` reading hands `int` the value
`1=2`, which raises. -/
theorem C4_counterexample_double_eq :
    parse_cache_control (some ("max-age=1=2"))
      = Except.ok [(("max-age"), CCVal.intVal 1)]
    ∧ parse_cache_control_firstSplit (some ("max-age=1=2")) = Except.error () :=
  ⟨rfl, rfl⟩

/-- C4 amended: the parser maps an absent header to the empty mapping,
and otherwise splits the header on `,` and each token on every `=`,
trimming whitespace around the name (the segment before the first `=`):
with at least one `=` the name maps to the segment between the first and
second `=` parsed as an integer (later segments are ignored), and with
no `=` the name maps to `true`.  Instances: the claim's three examples,
the amendment-forcing token, and name/value whitespace handling. -/
theorem C4_parse_instances :
    parse_cache_control none = Except.ok []
    ∧ parse_cache_control (some ("max-age=100, immutable"))
        = Except.ok [(("max-age"), CCVal.intVal 100), (("immutable"), CCVal.trueVal)]
    ∧ parse_cache_control (some ("no-store")) = Except.ok [(("no-store"), CCVal.trueVal)]
    ∧ parse_cache_control (some ("max-age=1=2"))
        = Except.ok [(("max-age"), CCVal.intVal 1)]
    ∧ parse_cache_control (some (" max-age = 60 "))
        = Except.ok [(("max-age"), CCVal.intVal 60)]
    ∧ parse_cache_control (some ("max-age=abc")) = Except.error () :=
  ⟨rfl, rfl, rfl, rfl, rfl, rfl⟩

/-- C5: whenever `touch` completes without raising, the store keeps the
same rows in the same positions with `uri`, `blob`, `etag` and
`immutable` unchanged (only `http_date, age, expires, last_modified,
max_age` can differ), and in particular no row is created or removed;
and when the directives parse and no row carries the uri, the call is
silently accepted and the store is exactly unchanged. -/
theorem C5_touch_frame {α : Type} (s : List (Row α)) (u : String) (h : Headers) :
    (∀ s', Cache.touch s u h = Except.ok s' →
      s'.length = s.length
      ∧ List.Forall₂ (fun r' r : Row α =>
          r'.uri = r.uri ∧ r'.blob = r.blob ∧ r'.etag = r.etag
            ∧ r'.immutable = r.immutable) s' s)
    ∧ (∀ d, parse_cache_control h.cache_control = Except.ok d →
        (∀ r ∈ s, r.uri ≠ u) → Cache.touch s u h = Except.ok s) := by
  constructor
  · intro s' hok
    unfold Cache.touch at hok
    cases hp : parse_cache_control h.cache_control with
    | error e => rw [hp] at hok; exact absurd hok (by simp)
    | ok dd =>
      rw [hp] at hok
      cases hdt : httpdate_to_datetime h.date with
      | none =>
        rw [hdt] at hok
        simp only [Except.ok.injEq] at hok
        subst hok
        refine ⟨rfl, List.forall₂_same.mpr ?_⟩
        intro x _
        exact ⟨rfl, rfl, rfl, rfl⟩
      | some hd =>
        rw [hdt] at hok
        simp only [Except.ok.injEq] at hok
        subst hok
        have hf : List.Forall₂ (fun r' r : Row α =>
            r'.uri = r.uri ∧ r'.blob = r.blob ∧ r'.etag = r.etag
              ∧ r'.immutable = r.immutable)
            (s.map (fun r =>
              if r.uri == u then
                { r with
                  http_date := hd,
                  age := h.age.map applyIntegerAffinity,
                  expires := httpdate_to_datetime h.expires,
                  last_modified := httpdate_to_datetime h.last_modified,
                  max_age := (dictGet dd ("max-age")).map ccToInt }
              else r)) s := by
          rw [List.forall₂_map_left_iff]
          refine List.forall₂_same.mpr ?_
          intro x _
          by_cases hu : (x.uri == u) = true
          · simp [hu]
          · simp only [Bool.not_eq_true] at hu
            simp [hu]
        exact ⟨hf.length_eq, hf⟩
  · intro d hp hnone
    unfold Cache.touch
    rw [hp]
    cases hdt : httpdate_to_datetime h.date with
    | none => rfl
    | some hd =>
      simp only []
      rw [map_fix_self]
      intro x hx
      have : (x.uri == u) = false := by
        simp only [beq_eq_false_iff_ne, ne_eq]
        exact hnone x hx
      simp [this]

/-- Witness for C5: applying the frame theorem to the populated example
row under the max-age headers, and to a store without the row. -/
theorem C5_touch_frame_witness :
    ([Row.mk ("u") (Blob.mk 1) exT0 none (some ("e")) none none (some 60)
        (some 1)].length = [exRowAged].length)
    ∧ Cache.touch ([exRowA1] : List (Row Nat)) ("u") exHdrMaxAge
        = Except.ok [exRowA1] :=
  ⟨((C5_touch_frame [exRowAged] ("u") exHdrMaxAge).1
      [Row.mk ("u") (Blob.mk 1) exT0 none (some ("e")) none none (some 60)
        (some 1)] rfl).1,
   (C5_touch_frame [exRowA1] ("u") exHdrMaxAge).2
      [(("max-age"), CCVal.intVal 60)] rfl (by decide)⟩

/-- C10 counterexample: with an existing row and a header mapping with
every key absent, the claim says `touch` sets `age` (and the other four
fields) to absent; instead the parsed `date` is NULL, the NOT NULL
constraint on `http_date` aborts the UPDATE, and the rolled-back row
keeps all its previous values. -/
theorem C10_counterexample_dateless_touch :
    Cache.touch [exRowAged] ("u") exHdrEmpty = Except.ok [exRowAged]
    ∧ exRowAged.age = some (SqlVal.intVal 5)
    ∧ exRowAged.max_age = some 60 :=
  ⟨rfl, rfl, rfl⟩

/-- C10 amended: when the directives parse and the `date` header parses
to a datetime, `touch` overwrites all five metadata fields of every row
carrying the uri unconditionally from the supplied headers (a key absent
from the headers stores NULL rather than keeping the previous value) and
leaves other rows untouched; but when the `date` header is absent or
malformed, the UPDATE is aborted by the NOT NULL constraint on
`http_date` whenever a matching row exists, and the store is exactly
unchanged. -/
theorem C10_touch_full_overwrite {α : Type} (s : List (Row α)) (u : String)
    (h : Headers) (d : List (String × CCVal)) (hd : Datetime)
    (hparse : parse_cache_control h.cache_control = Except.ok d) :
    (httpdate_to_datetime h.date = some hd →
      ∀ s', Cache.touch s u h = Except.ok s' →
        List.Forall₂ (fun r' r : Row α =>
          (r.uri = u →
            r'.http_date = hd
            ∧ r'.age = h.age.map applyIntegerAffinity
            ∧ r'.expires = httpdate_to_datetime h.expires
            ∧ r'.last_modified = httpdate_to_datetime h.last_modified
            ∧ r'.max_age = (dictGet d ("max-age")).map ccToInt)
          ∧ (r.uri ≠ u → r' = r)) s' s)
    ∧ (httpdate_to_datetime h.date = none → Cache.touch s u h = Except.ok s) := by
  constructor
  · intro hdate s' hok
    unfold Cache.touch at hok
    rw [hparse, hdate] at hok
    simp only [Except.ok.injEq] at hok
    subst hok
    rw [List.forall₂_map_left_iff]
    refine List.forall₂_same.mpr ?_
    intro x _
    constructor
    · intro hu
      have hb : (x.uri == u) = true := by simp [hu]
      simp [hb]
    · intro hu
      have hb : (x.uri == u) = false := by
        simp only [beq_eq_false_iff_ne, ne_eq]
        exact hu
      simp only [hb, Bool.false_eq_true, if_false]
  · intro hdate
    unfold Cache.touch
    rw [hparse, hdate]

/-- Witness for C10: the populated example row touched with the max-age
headers has all five fields overwritten, and touched with the empty
headers the store is unchanged. -/
theorem C10_touch_full_overwrite_witness :
    List.Forall₂ (fun r' r : Row Nat =>
        (r.uri = ("u") →
          r'.http_date = exT0
          ∧ r'.age = exHdrMaxAge.age.map applyIntegerAffinity
          ∧ r'.expires = httpdate_to_datetime exHdrMaxAge.expires
          ∧ r'.last_modified = httpdate_to_datetime exHdrMaxAge.last_modified
          ∧ r'.max_age = (dictGet [(("max-age"), CCVal.intVal 60)] ("max-age")).map ccToInt)
        ∧ (r.uri ≠ ("u") → r' = r))
      [Row.mk ("u") (Blob.mk 1) exT0 none (some ("e")) none none (some 60)
        (some 1)] [exRowAged]
    ∧ Cache.touch [exRowAged] ("u") exHdrEmpty = Except.ok [exRowAged] :=
  ⟨(C10_touch_full_overwrite [exRowAged] ("u") exHdrMaxAge
      [(("max-age"), CCVal.intVal 60)] exT0 rfl).1 rfl
      [Row.mk ("u") (Blob.mk 1) exT0 none (some ("e")) none none (some 60)
        (some 1)] rfl,
   (C10_touch_full_overwrite [exRowAged] ("u") exHdrEmpty [] exT0 rfl).2 rfl⟩

/-- C6 counterexample: the claim says `get` returns ALL of the row's
fields; but two stores whose rows differ in the stored `age` (here 1
vs 2, with `max_age` NULL so freshness is unaffected) produce identical
`get` results — the query selects only `blob, last_modified, etag,
immutable` and the computed `fresh`, so `age` (like `uri`, `http_date`,
`expires`, `max_age`) is not part of the result. -/
theorem C6_counterexample_age_not_returned :
    Cache.get [exRowAge1] ("u") exT30 = Cache.get [exRowAge2] ("u") exT30
    ∧ exRowAge1.age ≠ exRowAge2.age :=
  ⟨rfl, by decide⟩

/-- C6 amended: for a uri with no row `get` returns absent; for a uri
with a row it returns a partial entry holding the decoded payload and
the row's `last_modified`, `etag` and `immutable` together with the
boolean-or-NULL `fresh` verdict — and nothing else. -/
theorem C6_get_partial_entry {α : Type} (s : List (Row α)) (u : String)
    (now : Datetime) :
    (List.find? (fun r => r.uri == u) s = none → Cache.get s u now = none)
    ∧ (∀ r, List.find? (fun r => r.uri == u) s = some r →
        Cache.get s u now = some (CacheEntry.mk (Blob.deserialise r.blob)
          r.last_modified r.etag r.immutable (freshVerdict r now))) := by
  constructor
  · intro hf
    unfold Cache.get
    rw [hf]
    rfl
  · intro r hf
    unfold Cache.get
    rw [hf]
    rfl

/-- Witness for C6 at a store holding the example row and at the empty
store. -/
theorem C6_get_partial_entry_witness :
    Cache.get [exRowAge1] ("u") exT30
      = some (CacheEntry.mk (Blob.deserialise exRowAge1.blob)
          exRowAge1.last_modified exRowAge1.etag exRowAge1.immutable
          (freshVerdict exRowAge1 exT30))
    ∧ Cache.get ([] : List (Row Nat)) ("u") exT30 = none :=
  ⟨(C6_get_partial_entry [exRowAge1] ("u") exT30).2 exRowAge1 rfl,
   (C6_get_partial_entry ([] : List (Row Nat)) ("u") exT30).1 rfl⟩

/-- C7 counterexample: the claim says `format` maps every timestamp to
its IMF-fixdate text, but Python 2 `strftime` (the interpreter the
repository's `print(e.message)` error handling requires) raises
`ValueError` for years before 1900; the source's `except` branch catches
it and returns `None`.  Such timestamps are reachable: the codec's own
`parse` accepts any four-digit year, so a stored 1850 `Last-Modified`
formats to absent, not to text. -/
theorem C7_counterexample_pre1900_format :
    httpdate_to_datetime (some ("Tue, 01 Jan 1850 00:00:00 GMT"))
      = some (Datetime.mk 1850 1 1 0 0 0 none)
    ∧ datetime_to_httpdate (some (Datetime.mk 1850 1 1 0 0 0 none)) = none
    ∧ (datetime_to_httpdate (some (Datetime.mk 1850 1 1 0 0 0 none))).isSome = false :=
  ⟨rfl, rfl, rfl⟩

/-- C7 amended: the codec is a total pair from which no exception
escapes — `parse` maps absent to absent, any malformed string to absent
without raising (`ValueError` is caught; calendar-invalid dates and
missing zones included) and well-formed IMF-fixdate text (years 0001 to
9999) to a timestamp; `format` maps absent to absent, a timestamp with
year at least 1900 to its strftime rendering, and a pre-1900 timestamp
to absent, because Python 2 strftime refuses such years and the
resulting `ValueError` is caught at this boundary. -/
theorem C7_date_codec_partial_format :
    httpdate_to_datetime none = none
    ∧ datetime_to_httpdate none = none
    ∧ (∀ t : Datetime, 1900 ≤ t.year → datetime_to_httpdate (some t) = some (strftimeHttp t))
    ∧ (∀ t : Datetime, t.year < 1900 → datetime_to_httpdate (some t) = none)
    ∧ (∀ s : String, httpdate_to_datetime (some s) = strptimeHttp s)
    ∧ httpdate_to_datetime (some ("not an IMF-fixdate")) = none
    ∧ httpdate_to_datetime (some ("Sun, 30 Feb 2020 00:00:00 GMT")) = none
    ∧ httpdate_to_datetime (some ("Wed, 01 Jan 2020 00:00:00 GMT"))
        = some (Datetime.mk 2020 1 1 0 0 0 none)
    ∧ httpdate_to_datetime (some ("Wed, 01 Jan 2020 00:00:00")) = none := by
  refine ⟨rfl, rfl, ?_, ?_, fun _ => rfl, rfl, rfl, rfl, rfl⟩
  · intro t ht
    simp [datetime_to_httpdate, Nat.not_lt.mpr ht]
  · intro t ht
    simp [datetime_to_httpdate, ht]

/-- Witness for C7: the 2020 example timestamp formats to its rendering
(which for this naive value ends in a space, `%Z` being empty), while
the 1850 timestamp formats to absent. -/
theorem C7_date_codec_partial_format_witness :
    datetime_to_httpdate (some exT0) = some (strftimeHttp exT0)
    ∧ datetime_to_httpdate (some (Datetime.mk 1850 1 1 0 0 0 none)) = none :=
  ⟨(C7_date_codec_partial_format).2.2.1 exT0 (by decide),
   (C7_date_codec_partial_format).2.2.2.1 (Datetime.mk 1850 1 1 0 0 0 none) (by decide)⟩

/-- C8: the conditional-header builder returns a mapping holding
`If-None-Match` bound to the etag exactly when the etag is present,
`If-Modified-Since` bound to the date-codec formatting of
`last_modified` (which is `None` for the pre-1900 values the codec
refuses) exactly when `last_modified` is present, and no other keys;
with both validators absent the result is empty. -/
theorem C8_conditional_headers_exact {α : Type} (r : Row α) :
    (∀ v, ((("If-None-Match"), v) ∈ conditional_headers r ↔
        ∃ e, r.etag = some e ∧ v = some e))
    ∧ (∀ v, ((("If-Modified-Since"), v) ∈ conditional_headers r ↔
        ∃ lm, r.last_modified = some lm ∧ v = datetime_to_httpdate (some lm)))
    ∧ (∀ p ∈ conditional_headers r,
        p.1 = ("If-None-Match") ∨ p.1 = ("If-Modified-Since"))
    ∧ (r.etag = none → r.last_modified = none → conditional_headers r = []) := by
  unfold conditional_headers
  cases he : r.etag with
  | none =>
    cases hl : r.last_modified with
    | none => simp
    | some lm =>
      refine ⟨by simp, ?_, by simp, by simp⟩
      intro v
      simp [Prod.ext_iff]
  | some e =>
    cases hl : r.last_modified with
    | none =>
      refine ⟨?_, by simp, by simp, by simp⟩
      intro v
      simp [Prod.ext_iff]
    | some lm =>
      refine ⟨?_, ?_, by simp, by simp⟩
      · intro v
        simp [Prod.ext_iff]
      · intro v
        simp [Prod.ext_iff]

/-- Witness for C8: the claim's instance — etag `"v1"`, no
`last_modified` — yields exactly the `If-None-Match` binding, and a row
with neither validator yields the empty mapping. -/
theorem C8_conditional_headers_exact_witness :
    conditional_headers exRowEtagV1 = [(("If-None-Match"), some ("\"v1\""))]
    ∧ conditional_headers exRowMaxAge = []
    ∧ ((("If-None-Match"), (some ("\"v1\"") : Option String)) ∈ conditional_headers exRowEtagV1
        ↔ ∃ e, exRowEtagV1.etag = some e ∧ (some ("\"v1\"") : Option String) = some e) :=
  ⟨rfl,
   (C8_conditional_headers_exact exRowMaxAge).2.2.2 rfl rfl,
   (C8_conditional_headers_exact exRowEtagV1).1 (some ("\"v1\""))⟩

/-- C9 counterexample: the query filters with SQL
`uri LIKE '%' || s || '%'`, not substring containment: the pattern
metacharacter `_` in the argument `a_com` matches the literal `.` of
`http://a.com/1`, so the row is returned although `a_com` is not a
substring of its uri. -/
theorem C9_counterexample_like_wildcard :
    Cache.domain [exRowA1] ("a_com") 25 = [exRowA1]
    ∧ containsChars (("a_com").toList) (("http://a.com/1").toList) = false :=
  ⟨rfl, rfl⟩

/-- C9 amended: `domain` returns exactly the stored entries whose uri
matches the SQLite pattern `%s%` (ASCII case-insensitive, with `%` and
`_` in `s` acting as wildcards), ordered by `http_date` ascending
(bytewise text order of the stored timestamps) and truncated to the
first `limit`: every returned row matches, the result is sorted and no
longer than `limit`, and every matching row is returned when `limit`
accommodates them all. -/
theorem C9_domain_like_sorted {α : Type} [DecidableEq α] (s : List (Row α))
    (sub : String) (n : Nat) :
    (∀ r ∈ Cache.domain s sub n,
      likeMatch (('%' :: sub.toList) ++ ['%']) r.uri.toList = true)
    ∧ List.Sorted rowDateLe (Cache.domain s sub n)
    ∧ (Cache.domain s sub n).length ≤ n
    ∧ (∀ r ∈ s, likeMatch (('%' :: sub.toList) ++ ['%']) r.uri.toList = true →
        (s.filter (fun x => likeMatch (('%' :: sub.toList) ++ ['%']) x.uri.toList)).length ≤ n →
        r ∈ Cache.domain s sub n) := by
  refine ⟨?_, ?_, ?_, ?_⟩
  · intro r hr
    have h1 : r ∈ List.insertionSort rowDateLe
        (s.filter (fun x => likeMatch (('%' :: sub.toList) ++ ['%']) x.uri.toList)) :=
      (List.take_sublist n _).subset hr
    have h2 := (List.perm_insertionSort (@rowDateLe α) _).mem_iff.mp h1
    exact (List.mem_filter.mp h2).2
  · exact List.Pairwise.sublist (List.take_sublist _ _)
      (List.sorted_insertionSort rowDateLe _)
  · show (List.take n _).length ≤ n
    rw [List.length_take]
    exact min_le_left _ _
  · intro r hrs hlike hlen
    have hf : r ∈ s.filter (fun x => likeMatch (('%' :: sub.toList) ++ ['%']) x.uri.toList) :=
      List.mem_filter.mpr ⟨hrs, hlike⟩
    have hsort : r ∈ List.insertionSort rowDateLe
        (s.filter (fun x => likeMatch (('%' :: sub.toList) ++ ['%']) x.uri.toList)) :=
      (List.perm_insertionSort (@rowDateLe α) _).mem_iff.mpr hf
    have hlen2 : (List.insertionSort rowDateLe
        (s.filter (fun x => likeMatch (('%' :: sub.toList) ++ ['%']) x.uri.toList))).length ≤ n := by
      rw [List.length_insertionSort]
      exact hlen
    show r ∈ List.take n _
    rw [List.take_of_length_le hlen2]
    exact hsort

/-- Witness for C9 at the spec's domain-query example: three rows with
ascending dates; querying `a.com` returns the two `a.com` rows in date
order, they LIKE-match, the result is sorted, within the limit, and the
later `a.com` row is indeed among the results. -/
theorem C9_domain_like_sorted_witness :
    Cache.domain [exRowB1, exRowA2, exRowA1] ("a.com") 25 = [exRowA1, exRowA2]
    ∧ likeMatch (('%' :: ("a.com").toList) ++ ['%']) exRowA1.uri.toList = true
    ∧ List.Sorted rowDateLe (Cache.domain [exRowB1, exRowA2, exRowA1] ("a.com") 25)
    ∧ (Cache.domain [exRowB1, exRowA2, exRowA1] ("a.com") 25).length ≤ 25
    ∧ exRowA2 ∈ Cache.domain [exRowB1, exRowA2, exRowA1] ("a.com") 25 :=
  ⟨rfl,
   (C9_domain_like_sorted [exRowB1, exRowA2, exRowA1] ("a.com") 25).1 exRowA1
     (by decide),
   (C9_domain_like_sorted [exRowB1, exRowA2, exRowA1] ("a.com") 25).2.1,
   (C9_domain_like_sorted [exRowB1, exRowA2, exRowA1] ("a.com") 25).2.2.1,
   (C9_domain_like_sorted [exRowB1, exRowA2, exRowA1] ("a.com") 25).2.2.2 exRowA2
     (by decide) rfl (by decide)⟩
